import Mathlib

/-!
Verification development for the Game Time Tracker repository.

The development shallowly embeds the session data model, the client-side
session aggregator (`SQLiteHandler.generateSummaryStats` and
`SQLiteHandler.prepareDailyTrendData` from `src/js/sqlite-handler.js`), the
server-side statistics endpoint (`GET /api/sessions/stats` from
`src/server.js`), and the timer state machine of the `GameTimeTracker`
class (start / stop / metadata / alarm logic).

Modelling conventions:
- JS numbers that hold whole minutes or milliseconds are modelled as `Int`
  (all values flowing through the program are integers; `Math.round` at the
  single place a fraction appears is modelled exactly over `ℚ`).
- A possibly-missing (`undefined` / `null`) numeric field is `Option Int`;
  the JS idiom `x || 0` becomes `Option.getD 0`.
- JS plain objects used as string-keyed accumulator maps are modelled as
  insertion-ordered association lists, with `jsAdd` implementing
  `obj[k] = (obj[k] || 0) + v` (updating in place, appending new keys).
- The `game` field is the enumerated identifier of the data model; the
  source UI offers exactly the values `valorant` and `kovaaks`.
- A session's `metadata` field is `absent` (JS `undefined`/`null`),
  `malformed` (a persisted string that `JSON.parse` rejects), or an object
  holding the optional `matchTypes` / `aimType` attributes.
-/

inductive Game
  | valorant
  | kovaaks
deriving DecidableEq, Repr, Inhabited

structure Metadata where
  matchTypes : Option (List (String × Int))
  aimType : Option String
deriving DecidableEq, Repr, Inhabited

inductive MetaField
  | absent
  | malformed
  | obj (m : Metadata)
deriving DecidableEq, Repr, Inhabited

structure Session where
  game : Game
  date : String
  startTime : Option String
  endTime : Option String
  durationMinutes : Option Int
  metadata : MetaField
deriving DecidableEq, Repr, Inhabited

/-- Sum of `durationMinutes` over a record list, a missing value counting 0.
This is the reference quantity the claims about totals are stated against. -/
def sumDurations (sessions : List Session) : Int :=
  (sessions.map (fun s => s.durationMinutes.getD 0)).sum

/-- JS object field read `m[k]` on a string-keyed accumulator object. -/
def jsGet : List (String × Int) → String → Option Int
  | [], _ => none
  | (k', v) :: rest, k => if k = k' then some v else jsGet rest k

/-- JS accumulator update `m[k] = (m[k] || 0) + v`: an existing key is
updated in place, a new key is appended (JS objects keep insertion order). -/
def jsAdd : List (String × Int) → String → Int → List (String × Int)
  | [], k, v => [(k, v)]
  | (k', v') :: rest, k, v =>
    if k' = k then (k', v' + v) :: rest else (k', v') :: jsAdd rest k v

/-- The two-key per-game minute object `{ valorant: _, kovaaks: _ }` used both
for `gameBreakdown` and for each daily bucket of the trend data. -/
@[ext]
structure GameMinutes where
  valorant : Int
  kovaaks : Int
deriving DecidableEq, Repr, Inhabited

/-- The JS statement `obj[session.game] += d` on a per-game minute object. -/
def addGame (v : GameMinutes) (g : Game) (d : Int) : GameMinutes :=
  match g with
  | Game.valorant => { v with valorant := v.valorant + d }
  | Game.kovaaks => { v with kovaaks := v.kovaaks + d }

/-! ## prepareDailyTrendData (src/js/sqlite-handler.js lines 122-167) -/

/-- Daily bucket map update: `if (!dailyData[dateStr]) dailyData[dateStr] =
\x7bvalorant: 0, kovaaks: 0\x7d; dailyData[dateStr][session.game] += d`. -/
def updateDay : List (String × GameMinutes) → String → Game → Int →
    List (String × GameMinutes)
  | [], k, g, d => [(k, addGame ⟨0, 0⟩ g d)]
  | (k', v) :: rest, k, g, d =>
    if k' = k then (k', addGame v g d) :: rest
    else (k', v) :: updateDay rest k g d

/-- Bucket map read `dailyData[date]`. -/
def jsGetDay : List (String × GameMinutes) → String → Option GameMinutes
  | [], _ => none
  | (k', v) :: rest, k => if k = k' then some v else jsGetDay rest k

/-- One iteration of the `sessions.forEach` loop of `prepareDailyTrendData`.
`canon` models `new Date(session.date).toISOString().split('T')[0]`, the
source's canonicalization of the record's date string. -/
def dailyStep (canon : String → String) (acc : List (String × GameMinutes))
    (s : Session) : List (String × GameMinutes) :=
  updateDay acc (canon s.date) s.game (s.durationMinutes.getD 0)

structure Dataset where
  label : String
  data : List Int
  backgroundColor : String
  borderColor : String
  borderWidth : Int
deriving DecidableEq, Repr, Inhabited

structure ChartData where
  labels : List String
  datasets : List Dataset
deriving DecidableEq, Repr, Inhabited

/-- `SQLiteHandler.prepareDailyTrendData`: group sessions by canonical date
string and game, sort the dates (JS default `sort()` is lexicographic), and
emit the Chart.js payload. -/
def prepareDailyTrendData (canon : String → String) (sessions : List Session) :
    ChartData :=
  let dailyData := sessions.foldl (dailyStep canon) []
  let sortedDates := List.insertionSort (· ≤ ·) (dailyData.map Prod.fst)
  { labels := sortedDates
    datasets := [
      { label := "Valorant"
        data := sortedDates.map (fun date => ((jsGetDay dailyData date).getD ⟨0, 0⟩).valorant)
        backgroundColor := "rgba(255, 99, 132, 0.5)"
        borderColor := "rgb(255, 99, 132)"
        borderWidth := 1 },
      { label := "Kovaaks Aim Trainer"
        data := sortedDates.map (fun date => ((jsGetDay dailyData date).getD ⟨0, 0⟩).kovaaks)
        backgroundColor := "rgba(54, 162, 235, 0.5)"
        borderColor := "rgb(54, 162, 235)"
        borderWidth := 1 }
    ] }

/-! ## generateSummaryStats (src/js/sqlite-handler.js lines 174-230) -/

structure StatsAcc where
  totalTimeMinutes : Int
  gameBreakdown : GameMinutes
  valorantMatchTypes : List (String × Int)
  kovaaksAimTypes : List (String × Int)
deriving DecidableEq, Repr, Inhabited

/-- One iteration of the `sessions.forEach` loop of `generateSummaryStats`.
The truthiness tests of the source are rendered exactly: the match-type tally
runs only when `metadata` is an object whose `matchTypes` field is present
(an absent/null metadata is falsy, a malformed string has no such property);
the aim-type tally additionally skips the falsy empty-string label. -/
def statsStep (acc : StatsAcc) (s : Session) : StatsAcc :=
  let d := s.durationMinutes.getD 0
  let acc1 : StatsAcc :=
    { acc with
      totalTimeMinutes := acc.totalTimeMinutes + d
      gameBreakdown := addGame acc.gameBreakdown s.game d }
  let acc2 : StatsAcc :=
    match s.game, s.metadata with
    | Game.valorant, MetaField.obj m =>
      match m.matchTypes with
      | some mts =>
        { acc1 with
          valorantMatchTypes :=
            mts.foldl (fun mm p => jsAdd mm p.1 p.2) acc1.valorantMatchTypes }
      | none => acc1
    | _, _ => acc1
  match s.game, s.metadata with
  | Game.kovaaks, MetaField.obj m =>
    match m.aimType with
    | some a =>
      if a = "" then acc2
      else { acc2 with kovaaksAimTypes := jsAdd acc2.kovaaksAimTypes a d }
    | none => acc2
  | _, _ => acc2

@[ext]
structure SummaryStats where
  totalSessions : Nat
  totalTimeMinutes : Int
  avgSessionMinutes : ℚ
  gameBreakdown : GameMinutes
  valorantMatchTypes : List (String × Int)
  kovaaksAimTypes : List (String × Int)
deriving DecidableEq, Repr, Inhabited

/-- The early-return value of `generateSummaryStats` for a null/empty input. -/
def emptyStats : SummaryStats :=
  { totalSessions := 0
    totalTimeMinutes := 0
    avgSessionMinutes := 0
    gameBreakdown := ⟨0, 0⟩
    valorantMatchTypes := []
    kovaaksAimTypes := [] }

/-- `SQLiteHandler.generateSummaryStats`: totals, average, per-game breakdown
and the two sparse metadata breakdowns, via one pass over the records. -/
def generateSummaryStats (sessions : List Session) : SummaryStats :=
  if sessions.isEmpty then emptyStats
  else
    let acc := sessions.foldl statsStep ⟨0, ⟨0, 0⟩, [], []⟩
    { totalSessions := sessions.length
      totalTimeMinutes := acc.totalTimeMinutes
      avgSessionMinutes := (acc.totalTimeMinutes : ℚ) / (sessions.length : ℚ)
      gameBreakdown := acc.gameBreakdown
      valorantMatchTypes := acc.valorantMatchTypes
      kovaaksAimTypes := acc.kovaaksAimTypes }

/-! ## Server side: src/server.js -/

/-- One row's contribution to SQL `SUM(durationMinutes)`: `NULL` is skipped,
a value is added to the running total (which starts out `NULL`). -/
def sqlStep (acc : Option Int) (r : Session) : Option Int :=
  match r.durationMinutes with
  | none => acc
  | some d => some (acc.getD 0 + d)

/-- SQL `SUM(durationMinutes)` over a row list: `NULL` values are skipped and
the result is `NULL` exactly when no non-null value exists. -/
def sqlSumDur (rows : List Session) : Option Int :=
  rows.foldl sqlStep none

/-- Per-row metadata normalization of the stats endpoint (src/server.js lines
166-177): a stored `NULL` becomes the empty object, a stored string that
fails `JSON.parse` becomes the empty object, a parsed object is kept. -/
def resolveMeta : MetaField → Metadata
  | MetaField.absent => ⟨none, none⟩
  | MetaField.malformed => ⟨none, none⟩
  | MetaField.obj m => m

/-- Per-session normalization of the load endpoint (src/server.js lines
113-124): metadata is replaced by its parsed form, an unparseable string or
a `NULL` becoming the empty object. -/
def apiSessionsLoadResolve (s : Session) : Session :=
  { s with metadata := MetaField.obj (resolveMeta s.metadata) }

/-- One iteration of the metadata loop of the stats endpoint (src/server.js
lines 184-195), updating the pair (valorantMatchTypes, kovaaksAimTypes).
The aim-type tally adds `session.durationMinutes` directly; a SQL `NULL`
surfaces as JS `null`, which coerces to 0 under `+`, hence `getD 0`. -/
def serverMetaStep (p : List (String × Int) × List (String × Int))
    (s : Session) : List (String × Int) × List (String × Int) :=
  let vmt :=
    match s.game, s.metadata with
    | Game.valorant, MetaField.obj m =>
      match m.matchTypes with
      | some mts => mts.foldl (fun mm q => jsAdd mm q.1 q.2) p.1
      | none => p.1
    | _, _ => p.1
  let kat :=
    match s.game, s.metadata with
    | Game.kovaaks, MetaField.obj m =>
      match m.aimType with
      | some a =>
        if a = "" then p.2 else jsAdd p.2 a (s.durationMinutes.getD 0)
      | none => p.2
    | _, _ => p.2
  (vmt, kat)

/-- The `GET /api/sessions/stats` handler (src/server.js lines 147-214):
totals and per-game sums via SQL aggregate queries over the stored rows,
metadata breakdowns via a JS loop over the rows after metadata parsing. -/
def apiSessionsStats (rows : List Session) : SummaryStats :=
  let totalSessions := rows.length
  let totalTimeMinutes := (sqlSumDur rows).getD 0
  let avgSessionMinutes : ℚ :=
    if totalSessions > 0 then (totalTimeMinutes : ℚ) / (totalSessions : ℚ) else 0
  let valorantMinutes :=
    (sqlSumDur (rows.filter (fun r => r.game = Game.valorant))).getD 0
  let kovaaksMinutes :=
    (sqlSumDur (rows.filter (fun r => r.game = Game.kovaaks))).getD 0
  let resolved := rows.map apiSessionsLoadResolve
  let maps := resolved.foldl serverMetaStep ([], [])
  { totalSessions := totalSessions
    totalTimeMinutes := totalTimeMinutes
    avgSessionMinutes := avgSessionMinutes
    gameBreakdown := ⟨valorantMinutes, kovaaksMinutes⟩
    valorantMatchTypes := maps.1
    kovaaksAimTypes := maps.2 }

/-! ## Timer state machine: GameTimeTracker (src/unnamed/part_005) -/

/-- `Math.round(x)` on a JS number, which is `⌊x + 1/2⌋` (halves round toward
positive infinity). All inputs the program feeds it are exact enough in
binary64 that the exact rational model is faithful. -/
def mathRound (q : ℚ) : ℤ := ⌊q + 1 / 2⌋

/-- The mutable fields of the `GameTimeTracker` instance that the timer,
alarm and session logic reads and writes (DOM-only presentation fields such
as button disabled flags are omitted; `timerActive` models whether the
`setInterval` handle is live, `metadataFormVisible` the metadata container
display, `alarmSoundPlaying`/`alarmNotificationVisible` the alarm sound and
notification elements, `selectedGame` the game `select` value). -/
structure TrackerState where
  isRunning : Bool
  startTime : Option Int
  elapsedTime : Int
  timerActive : Bool
  sessions : List Session
  currentSession : Option Session
  selectedGame : Game
  alarmTriggered : Bool
  alarmSoundPlaying : Bool
  alarmNotificationVisible : Bool
  hourlyAlarmThreshold : Int
  metadataFormVisible : Bool
deriving DecidableEq, Repr

/-- The constructor's initial field values (sessions from an empty local
storage; the game selection is whatever the `select` element shows). -/
def initialTrackerState (g : Game) : TrackerState :=
  { isRunning := false
    startTime := none
    elapsedTime := 0
    timerActive := false
    sessions := []
    currentSession := none
    selectedGame := g
    alarmTriggered := false
    alarmSoundPlaying := false
    alarmNotificationVisible := false
    hourlyAlarmThreshold := 60
    metadataFormVisible := false }

/-- `GameTimeTracker.startTimer` (part_005 lines 485-511). `now` is
`Date.now()` in ms, `today` the current `YYYY-MM-DD` string, `nowIso` the
current ISO timestamp. A call while running returns immediately. -/
def startTimer (now : Int) (today : String) (nowIso : String)
    (st : TrackerState) : TrackerState :=
  if st.isRunning then st
  else
    { st with
      isRunning := true
      startTime := some (now - st.elapsedTime)
      currentSession := some
        { game := st.selectedGame
          date := today
          startTime := some nowIso
          endTime := none
          durationMinutes := some 0
          metadata := MetaField.obj ⟨none, none⟩ }
      alarmTriggered := false
      timerActive := true }

/-- `GameTimeTracker.showMetadataForm` (part_005 lines 516-549), the stop
transition: a call while idle returns immediately; otherwise the interval is
cleared and the current session receives its `endTime` and
`durationMinutes = Math.round(elapsedTime / 60000)`. The update is through
`Option.map`: in every reachable running state the source has a current
session object. -/
def showMetadataForm (nowIso : String) (st : TrackerState) : TrackerState :=
  if !st.isRunning then st
  else
    { st with
      timerActive := false
      currentSession := st.currentSession.map (fun cs =>
        { cs with
          endTime := some nowIso
          durationMinutes := some (mathRound ((st.elapsedTime : ℚ) / 60000)) })
      metadataFormVisible := true }

/-- `GameTimeTracker.completeSession` (part_005 lines 608-630): append the
current session to the collection, reset the display and leave `Running`.
The source would append a JS `null` when no current session exists; that
branch is unreachable from the modelled flows and is rendered as a no-op. -/
def completeSession (st : TrackerState) : TrackerState :=
  match st.currentSession with
  | none => st
  | some cs =>
    { st with
      sessions := st.sessions ++ [cs]
      elapsedTime := 0
      isRunning := false
      metadataFormVisible := false }

/-- `GameTimeTracker.triggerAlarm` (part_005 lines 682-699): guarded by the
latch; sets the latch, starts the sound and shows the notification. -/
def triggerAlarm (st : TrackerState) : TrackerState :=
  if st.alarmTriggered then st
  else
    { st with
      alarmTriggered := true
      alarmSoundPlaying := true
      alarmNotificationVisible := true }

/-- Today's cumulative kovaaks minutes as computed by
`checkKovaaksTimeThreshold` (part_005 lines 655-671): completed kovaaks
sessions dated today plus `Math.floor(elapsedTime / 60000)` for the
in-progress session. -/
def todayKovaaksMinutes (today : String) (st : TrackerState) : Int :=
  st.sessions.foldl
    (fun acc s =>
      if s.game = Game.kovaaks ∧ s.date = today then
        acc + s.durationMinutes.getD 0
      else acc)
    0
  + Int.fdiv st.elapsedTime 60000

/-- `GameTimeTracker.checkKovaaksTimeThreshold` (part_005 lines 655-677). -/
def checkKovaaksTimeThreshold (today : String) (st : TrackerState) :
    TrackerState :=
  if todayKovaaksMinutes today st ≥ st.hourlyAlarmThreshold then
    triggerAlarm st
  else st

/-- `GameTimeTracker.updateTimer` (part_005 lines 642-650), the periodic
tick: recompute `elapsedTime = Date.now() - startTime`, then run the
threshold check when the current session is a kovaaks session and the alarm
latch is clear. `updateTimer` only ever runs while the interval started by
`startTimer` is live, where `startTime` is set, hence the `getD 0`. -/
def updateTimer (now : Int) (today : String) (st : TrackerState) :
    TrackerState :=
  let st1 := { st with elapsedTime := now - st.startTime.getD 0 }
  match st1.currentSession with
  | some cs =>
    if cs.game = Game.kovaaks ∧ ¬st1.alarmTriggered then
      checkKovaaksTimeThreshold today st1
    else st1
  | none => st1

/-- `GameTimeTracker.dismissAlarm` (part_005 lines 704-715): stop the sound
and hide the notification, touching nothing else. -/
def dismissAlarm (st : TrackerState) : TrackerState :=
  { st with alarmSoundPlaying := false, alarmNotificationVisible := false }

/-! ## Projections of the aggregation step

The four accumulator components of `statsStep` evolve independently of each
other; the two map components are shared verbatim with the server loop.
The step functions below name those components for the proofs. -/

/-- The valorantMatchTypes component of one aggregation step (identical in
`generateSummaryStats` and in the stats endpoint loop). -/
def vmtStep (mm : List (String × Int)) (s : Session) : List (String × Int) :=
  match s.game, s.metadata with
  | Game.valorant, MetaField.obj m =>
    match m.matchTypes with
    | some mts => mts.foldl (fun mm' p => jsAdd mm' p.1 p.2) mm
    | none => mm
  | _, _ => mm

/-- The kovaaksAimTypes component of one aggregation step (identical in
`generateSummaryStats` and in the stats endpoint loop). -/
def katStep (kk : List (String × Int)) (s : Session) : List (String × Int) :=
  match s.game, s.metadata with
  | Game.kovaaks, MetaField.obj m =>
    match m.aimType with
    | some a =>
      if a = "" then kk else jsAdd kk a (s.durationMinutes.getD 0)
    | none => kk
  | _, _ => kk

/-- Total minutes a daily bucket holds for a given date key (0 for a date
with no bucket). -/
def dayTotal (m : List (String × GameMinutes)) (k : String) : Int :=
  ((jsGetDay m k).getD ⟨0, 0⟩).valorant + ((jsGetDay m k).getD ⟨0, 0⟩).kovaaks

/-! ## Concrete records used by the evaluation witnesses -/

def sValorant : Session :=
  { game := Game.valorant
    date := "2024-01-01"
    startTime := none
    endTime := none
    durationMinutes := some 30
    metadata := MetaField.obj ⟨some [("competitive", 2)], none⟩ }

def sKovaaks : Session :=
  { game := Game.kovaaks
    date := "2024-01-02"
    startTime := none
    endTime := none
    durationMinutes := some 45
    metadata := MetaField.obj ⟨none, some "static-clicking"⟩ }

def sBrokenMeta : Session :=
  { game := Game.kovaaks
    date := "2024-01-03"
    startTime := none
    endTime := none
    durationMinutes := some 10
    metadata := MetaField.malformed }

def sKovaaksToday : Session :=
  { game := Game.kovaaks
    date := "2024-01-02"
    startTime := none
    endTime := none
    durationMinutes := some 59
    metadata := MetaField.obj ⟨none, none⟩ }

def runningKovaaksCurrent : Session :=
  { game := Game.kovaaks
    date := "2024-01-02"
    startTime := some "2024-01-02T10:00:00.000Z"
    endTime := none
    durationMinutes := some 0
    metadata := MetaField.obj ⟨none, none⟩ }

def runningKovaaksState : TrackerState :=
  { isRunning := true
    startTime := some 0
    elapsedTime := 0
    timerActive := true
    sessions := [sKovaaksToday]
    currentSession := some runningKovaaksCurrent
    selectedGame := Game.kovaaks
    alarmTriggered := false
    alarmSoundPlaying := false
    alarmNotificationVisible := false
    hourlyAlarmThreshold := 60
    metadataFormVisible := false }

/-! ## Mutation-aware aggregator embedding

To settle the frame claim that the aggregators never write into their input,
the two `forEach` loops are re-embedded with each loop body threading the
session object it visits: the body returns the accumulator together with the
session object as it stands after the body ran, and the traversal rebuilds
the array from the returned objects. Each body is translated statement by
statement from the source; every statement only reads `session.*`, so the
returned object is the visited one. -/

/-- `sessions.forEach(body)` where the body may in principle update both an
accumulator and the visited element; the traversal returns the accumulator
and the array as left behind by the loop. -/
def forEachThread (f : α → Session → α × Session) :
    α → List Session → α × List Session
  | a, [] => (a, [])
  | a, s :: rest =>
    let p := f a s
    let q := forEachThread f p.1 rest
    (q.1, p.2 :: q.2)

/-- The `generateSummaryStats` loop body with the visited session threaded:
the body reads `session.durationMinutes`, `session.game` and
`session.metadata` and assigns only to the loop-local accumulators, so the
session comes back unmodified. -/
def statsBody (acc : StatsAcc) (s : Session) : StatsAcc × Session :=
  (statsStep acc s, s)

/-- The `prepareDailyTrendData` loop body with the visited session threaded:
the body reads `session.date`, `session.durationMinutes` and `session.game`
and assigns only into `dailyData`, so the session comes back unmodified. -/
def dailyBody (canon : String → String) (acc : List (String × GameMinutes))
    (s : Session) : List (String × GameMinutes) × Session :=
  (dailyStep canon acc s, s)

/-- `generateSummaryStats` with the array state made explicit: the result
statistics together with the session array as the loop left it. -/
def generateSummaryStatsM (sessions : List Session) :
    SummaryStats × List Session :=
  if sessions.isEmpty then (emptyStats, sessions)
  else
    let r := forEachThread statsBody ⟨0, ⟨0, 0⟩, [], []⟩ sessions
    let acc := r.1
    ({ totalSessions := sessions.length
       totalTimeMinutes := acc.totalTimeMinutes
       avgSessionMinutes := (acc.totalTimeMinutes : ℚ) / (sessions.length : ℚ)
       gameBreakdown := acc.gameBreakdown
       valorantMatchTypes := acc.valorantMatchTypes
       kovaaksAimTypes := acc.kovaaksAimTypes },
     r.2)

/-- `prepareDailyTrendData` with the array state made explicit. -/
def prepareDailyTrendDataM (canon : String → String)
    (sessions : List Session) : ChartData × List Session :=
  let r := forEachThread (dailyBody canon) [] sessions
  let dailyData := r.1
  let sortedDates := List.insertionSort (· ≤ ·) (dailyData.map Prod.fst)
  ({ labels := sortedDates
     datasets := [
       { label := "Valorant"
         data := sortedDates.map (fun date => ((jsGetDay dailyData date).getD ⟨0, 0⟩).valorant)
         backgroundColor := "rgba(255, 99, 132, 0.5)"
         borderColor := "rgb(255, 99, 132)"
         borderWidth := 1 },
       { label := "Kovaaks Aim Trainer"
         data := sortedDates.map (fun date => ((jsGetDay dailyData date).getD ⟨0, 0⟩).kovaaks)
         backgroundColor := "rgba(54, 162, 235, 0.5)"
         borderColor := "rgb(54, 162, 235)"
         borderWidth := 1 }
     ] },
   r.2)

/-! ## Lemmas about the aggregation step -/

theorem statsStep_eq (acc : StatsAcc) (s : Session) :
    statsStep acc s =
      { totalTimeMinutes := acc.totalTimeMinutes + s.durationMinutes.getD 0
        gameBreakdown := addGame acc.gameBreakdown s.game (s.durationMinutes.getD 0)
        valorantMatchTypes := vmtStep acc.valorantMatchTypes s
        kovaaksAimTypes := katStep acc.kovaaksAimTypes s } := by
  rcases s with ⟨g, date, st, et, dm, md⟩
  rcases g <;> rcases md with _ | _ | ⟨mt, aty⟩ <;> try rfl
  all_goals rcases mt with _ | mts <;> rcases aty with _ | a <;> try rfl
  all_goals by_cases ha : a = "" <;> simp [statsStep, vmtStep, katStep, ha]

theorem sumDurations_nil : sumDurations [] = 0 := rfl

theorem sumDurations_cons (s : Session) (l : List Session) :
    sumDurations (s :: l) = s.durationMinutes.getD 0 + sumDurations l := by
  simp [sumDurations]

theorem foldl_statsStep_totalTime (l : List Session) (acc : StatsAcc) :
    (l.foldl statsStep acc).totalTimeMinutes =
      acc.totalTimeMinutes + sumDurations l := by
  induction l generalizing acc with
  | nil => simp [sumDurations]
  | cons s l ih =>
    rw [List.foldl_cons, ih, statsStep_eq, sumDurations_cons]
    ring_nf

theorem addGame_valorant_field (v : GameMinutes) (g : Game) (d : Int) :
    (addGame v g d).valorant =
      v.valorant + (if g = Game.valorant then d else 0) := by
  cases g <;> simp [addGame]

theorem addGame_kovaaks_field (v : GameMinutes) (g : Game) (d : Int) :
    (addGame v g d).kovaaks =
      v.kovaaks + (if g = Game.kovaaks then d else 0) := by
  cases g <;> simp [addGame]

theorem foldl_statsStep_gb_valorant (l : List Session) (acc : StatsAcc) :
    (l.foldl statsStep acc).gameBreakdown.valorant =
      acc.gameBreakdown.valorant +
        sumDurations (l.filter (fun s => s.game = Game.valorant)) := by
  induction l generalizing acc with
  | nil => simp [sumDurations]
  | cons s l ih =>
    rw [List.foldl_cons, ih, statsStep_eq]
    by_cases hg : s.game = Game.valorant <;>
      simp [List.filter_cons, hg, addGame_valorant_field, sumDurations_cons] <;>
      omega

theorem foldl_statsStep_gb_kovaaks (l : List Session) (acc : StatsAcc) :
    (l.foldl statsStep acc).gameBreakdown.kovaaks =
      acc.gameBreakdown.kovaaks +
        sumDurations (l.filter (fun s => s.game = Game.kovaaks)) := by
  induction l generalizing acc with
  | nil => simp [sumDurations]
  | cons s l ih =>
    rw [List.foldl_cons, ih, statsStep_eq]
    by_cases hg : s.game = Game.kovaaks <;>
      simp [List.filter_cons, hg, addGame_kovaaks_field, sumDurations_cons] <;>
      omega

theorem foldl_statsStep_vmt (l : List Session) (acc : StatsAcc) :
    (l.foldl statsStep acc).valorantMatchTypes =
      l.foldl vmtStep acc.valorantMatchTypes := by
  induction l generalizing acc with
  | nil => rfl
  | cons s l ih => rw [List.foldl_cons, ih, statsStep_eq]; rfl

theorem foldl_statsStep_kat (l : List Session) (acc : StatsAcc) :
    (l.foldl statsStep acc).kovaaksAimTypes =
      l.foldl katStep acc.kovaaksAimTypes := by
  induction l generalizing acc with
  | nil => rfl
  | cons s l ih => rw [List.foldl_cons, ih, statsStep_eq]; rfl

/-! ## Lemmas about the server-side computation -/

theorem foldl_sqlStep_getD (l : List Session) (acc : Option Int) :
    (l.foldl sqlStep acc).getD 0 = acc.getD 0 + sumDurations l := by
  induction l generalizing acc with
  | nil => simp [sumDurations]
  | cons s l ih =>
    rw [List.foldl_cons, ih, sumDurations_cons]
    cases h : s.durationMinutes with
    | none => simp [sqlStep, h]
    | some d => simp [sqlStep, h]; ring

theorem sqlSumDur_getD (l : List Session) :
    (sqlSumDur l).getD 0 = sumDurations l := by
  simpa using foldl_sqlStep_getD l none

theorem serverMetaStep_eq (p : List (String × Int) × List (String × Int))
    (s : Session) : serverMetaStep p s = (vmtStep p.1 s, katStep p.2 s) := by
  rcases s with ⟨g, date, st, et, dm, md⟩
  rcases g <;> rcases md with _ | _ | ⟨mt, aty⟩ <;> try rfl
  all_goals rcases mt with _ | mts <;> rcases aty with _ | a <;> try rfl
  all_goals by_cases ha : a = "" <;>
    simp [serverMetaStep, vmtStep, katStep, ha]

theorem foldl_serverMetaStep (l : List Session)
    (v k : List (String × Int)) :
    l.foldl serverMetaStep (v, k) = (l.foldl vmtStep v, l.foldl katStep k) := by
  induction l generalizing v k with
  | nil => rfl
  | cons s l ih => rw [List.foldl_cons, serverMetaStep_eq, ih]; rfl

theorem vmtStep_resolve (v : List (String × Int)) (s : Session) :
    vmtStep v (apiSessionsLoadResolve s) = vmtStep v s := by
  rcases s with ⟨g, date, st, et, dm, md⟩
  rcases g <;> rcases md <;> rfl

theorem katStep_resolve (k : List (String × Int)) (s : Session) :
    katStep k (apiSessionsLoadResolve s) = katStep k s := by
  rcases s with ⟨g, date, st, et, dm, md⟩
  rcases g <;> rcases md <;> rfl

theorem foldl_vmtStep_resolve (l : List Session) (v : List (String × Int)) :
    (l.map apiSessionsLoadResolve).foldl vmtStep v = l.foldl vmtStep v := by
  induction l generalizing v with
  | nil => rfl
  | cons s l ih => rw [List.map_cons, List.foldl_cons, List.foldl_cons,
      vmtStep_resolve, ih]

theorem foldl_katStep_resolve (l : List Session) (k : List (String × Int)) :
    (l.map apiSessionsLoadResolve).foldl katStep k = l.foldl katStep k := by
  induction l generalizing k with
  | nil => rfl
  | cons s l ih => rw [List.map_cons, List.foldl_cons, List.foldl_cons,
      katStep_resolve, ih]

/-! ## Lemmas about the breakdown map keys -/

/-- The record carries the match-type label `x` in its metadata. -/
def observedMatchKey (s : Session) (x : String) : Prop :=
  s.game = Game.valorant ∧
    ∃ m mts, s.metadata = MetaField.obj m ∧ m.matchTypes = some mts ∧
      x ∈ mts.map Prod.fst

/-- The record carries the aim-type label `x` in its metadata. -/
def observedAimKey (s : Session) (x : String) : Prop :=
  s.game = Game.kovaaks ∧
    ∃ m, s.metadata = MetaField.obj m ∧ m.aimType = some x

theorem mem_keys_jsAdd (m : List (String × Int)) (k : String) (v : Int)
    (x : String) (hx : x ∈ (jsAdd m k v).map Prod.fst) :
    x ∈ m.map Prod.fst ∨ x = k := by
  induction m with
  | nil => simpa [jsAdd] using hx
  | cons p rest ih =>
    rcases p with ⟨k', v'⟩
    by_cases hk : k' = k
    · simp only [jsAdd, if_pos hk, List.map_cons, List.mem_cons] at hx ⊢
      tauto
    · simp only [jsAdd, if_neg hk, List.map_cons, List.mem_cons] at hx ⊢
      rcases hx with h | h
      · exact Or.inl (Or.inl h)
      · rcases ih h with h' | h'
        · exact Or.inl (Or.inr h')
        · exact Or.inr h'

theorem mem_keys_entriesFold (mts : List (String × Int)) :
    ∀ (mm : List (String × Int)) (x : String),
      x ∈ ((mts.foldl (fun mm' p => jsAdd mm' p.1 p.2) mm).map Prod.fst) →
      x ∈ mm.map Prod.fst ∨ x ∈ mts.map Prod.fst := by
  induction mts with
  | nil => exact fun mm x hx => Or.inl hx
  | cons p rest ih =>
    intro mm x hx
    rw [List.foldl_cons] at hx
    rcases ih _ x hx with h | h
    · rcases mem_keys_jsAdd _ _ _ _ h with h' | h'
      · exact Or.inl h'
      · exact Or.inr (by simp [h'])
    · exact Or.inr (by simp [h])

theorem mem_keys_vmtStep (v : List (String × Int)) (s : Session) (x : String)
    (hx : x ∈ (vmtStep v s).map Prod.fst) :
    x ∈ v.map Prod.fst ∨ observedMatchKey s x := by
  rcases s with ⟨g, date, st, et, dm, md⟩
  rcases g
  · rcases md with _ | _ | ⟨mt, aty⟩
    · exact Or.inl hx
    · exact Or.inl hx
    · rcases mt with _ | mts
      · exact Or.inl hx
      · rcases mem_keys_entriesFold mts v x hx with h | h
        · exact Or.inl h
        · exact Or.inr ⟨rfl, ⟨some mts, aty⟩, mts, rfl, rfl, h⟩
  · rcases md with _ | _ | ⟨mt, aty⟩ <;> exact Or.inl hx

theorem mem_keys_katStep (k : List (String × Int)) (s : Session) (x : String)
    (hx : x ∈ (katStep k s).map Prod.fst) :
    x ∈ k.map Prod.fst ∨ observedAimKey s x := by
  rcases s with ⟨g, date, st, et, dm, md⟩
  rcases g
  · rcases md with _ | _ | ⟨mt, aty⟩ <;> exact Or.inl hx
  · rcases md with _ | _ | ⟨mt, aty⟩
    · exact Or.inl hx
    · exact Or.inl hx
    · rcases aty with _ | a
      · exact Or.inl hx
      · by_cases hae : a = ""
        · exact Or.inl (by simpa [katStep, hae] using hx)
        · simp only [katStep, if_neg hae] at hx
          rcases mem_keys_jsAdd _ _ _ _ hx with h | h
          · exact Or.inl h
          · exact Or.inr ⟨rfl, ⟨mt, some a⟩, rfl, by rw [h]⟩

theorem mem_keys_foldl_vmtStep (l : List Session) :
    ∀ (v : List (String × Int)) (x : String),
      x ∈ ((l.foldl vmtStep v).map Prod.fst) →
      x ∈ v.map Prod.fst ∨ ∃ s ∈ l, observedMatchKey s x := by
  induction l with
  | nil => exact fun v x hx => Or.inl hx
  | cons s l ih =>
    intro v x hx
    rw [List.foldl_cons] at hx
    rcases ih _ x hx with h | h
    · rcases mem_keys_vmtStep v s x h with h' | h'
      · exact Or.inl h'
      · exact Or.inr ⟨s, by simp, h'⟩
    · rcases h with ⟨s', hs', h'⟩
      exact Or.inr ⟨s', by simp [hs'], h'⟩

theorem mem_keys_foldl_katStep (l : List Session) :
    ∀ (k : List (String × Int)) (x : String),
      x ∈ ((l.foldl katStep k).map Prod.fst) →
      x ∈ k.map Prod.fst ∨ ∃ s ∈ l, observedAimKey s x := by
  induction l with
  | nil => exact fun k x hx => Or.inl hx
  | cons s l ih =>
    intro k x hx
    rw [List.foldl_cons] at hx
    rcases ih _ x hx with h | h
    · rcases mem_keys_katStep k s x h with h' | h'
      · exact Or.inl h'
      · exact Or.inr ⟨s, by simp, h'⟩
    · rcases h with ⟨s', hs', h'⟩
      exact Or.inr ⟨s', by simp [hs'], h'⟩

/-! ## Claim C1 -/

/-- C1: for every session collection, `generateSummaryStats` returns
`totalSessions` equal to the number of records and `totalTimeMinutes` equal
to the sum of `durationMinutes` over all records (a missing value counting
0), and the empty collection yields `totalTimeMinutes = 0`. -/
theorem C1_summarize_totals (sessions : List Session) :
    (generateSummaryStats sessions).totalSessions = sessions.length ∧
    (generateSummaryStats sessions).totalTimeMinutes = sumDurations sessions ∧
    (generateSummaryStats ([] : List Session)).totalTimeMinutes = 0 := by
  refine ⟨?_, ?_, rfl⟩ <;> by_cases h : sessions.isEmpty
  · rw [List.isEmpty_iff] at h
    subst h
    rfl
  · simp [generateSummaryStats, h]
  · rw [List.isEmpty_iff] at h
    subst h
    rfl
  · simp [generateSummaryStats, h, foldl_statsStep_totalTime]

/-! ## Claim C4 -/

/-- C4: the summary's `gameBreakdown` carries an entry for each of the two
known game identifiers whose value is 0 when no session of that game exists,
while the match-type and aim-type breakdowns only carry keys that some
session's metadata actually exhibits. -/
theorem C4_breakdown_domains (sessions : List Session) :
    ((sessions.filter (fun s => s.game = Game.valorant)).isEmpty = true →
      (generateSummaryStats sessions).gameBreakdown.valorant = 0) ∧
    ((sessions.filter (fun s => s.game = Game.kovaaks)).isEmpty = true →
      (generateSummaryStats sessions).gameBreakdown.kovaaks = 0) ∧
    (∀ x, x ∈ (generateSummaryStats sessions).valorantMatchTypes.map Prod.fst →
      ∃ s ∈ sessions, observedMatchKey s x) ∧
    (∀ x, x ∈ (generateSummaryStats sessions).kovaaksAimTypes.map Prod.fst →
      ∃ s ∈ sessions, observedAimKey s x) := by
  by_cases h : sessions.isEmpty
  · rw [List.isEmpty_iff] at h
    subst h
    exact ⟨fun _ => rfl, fun _ => rfl,
      fun x hx => absurd hx (by simp [generateSummaryStats, emptyStats]),
      fun x hx => absurd hx (by simp [generateSummaryStats, emptyStats])⟩
  · refine ⟨?_, ?_, ?_, ?_⟩
    · intro hf
      rw [List.isEmpty_iff] at hf
      simp [generateSummaryStats, h, foldl_statsStep_gb_valorant, hf,
        sumDurations]
    · intro hf
      rw [List.isEmpty_iff] at hf
      simp [generateSummaryStats, h, foldl_statsStep_gb_kovaaks, hf,
        sumDurations]
    · intro x hx
      simp only [generateSummaryStats, h, Bool.false_eq_true, if_false,
        foldl_statsStep_vmt] at hx
      rcases mem_keys_foldl_vmtStep sessions _ x hx with h' | h'
      · simp at h'
      · exact h'
    · intro x hx
      simp only [generateSummaryStats, h, Bool.false_eq_true, if_false,
        foldl_statsStep_kat] at hx
      rcases mem_keys_foldl_katStep sessions _ x hx with h' | h'
      · simp at h'
      · exact h'

/-- Evaluation witness for C4: one kovaaks-only collection has a zero
valorant entry, and its aim-type breakdown key is one an input record
exhibits. -/
theorem C4_breakdown_domains_witness :
    (generateSummaryStats [sKovaaks]).gameBreakdown.valorant = 0 ∧
    (∃ s ∈ [sKovaaks], observedAimKey s "static-clicking") :=
  ⟨(C4_breakdown_domains [sKovaaks]).1 (by decide),
   (C4_breakdown_domains [sKovaaks]).2.2.2 "static-clicking" (by decide)⟩

/-! ## Claim C9 -/

theorem vmtStep_skips_nometa (v : List (String × Int)) (r : Session)
    (hr : r.metadata = MetaField.absent ∨ r.metadata = MetaField.malformed) :
    vmtStep v r = v := by
  rcases r with ⟨g, date, st, et, dm, md⟩
  rcases hr with h | h <;> (simp only at h; subst h; rcases g <;> rfl)

theorem katStep_skips_nometa (k : List (String × Int)) (r : Session)
    (hr : r.metadata = MetaField.absent ∨ r.metadata = MetaField.malformed) :
    katStep k r = k := by
  rcases r with ⟨g, date, st, et, dm, md⟩
  rcases hr with h | h <;> (simp only at h; subst h; rcases g <;> rfl)

theorem sumDurations_append (a b : List Session) :
    sumDurations (a ++ b) = sumDurations a + sumDurations b := by
  simp [sumDurations]

/-- C9: a record whose metadata is absent or malformed never breaks the
aggregation: it still counts toward `totalSessions` and `totalTimeMinutes`,
it contributes nothing to either metadata breakdown, and the load endpoint
replaces an unparseable metadata string by the empty object. -/
theorem C9_malformed_metadata_absorbed (pre post : List Session) (r : Session)
    (hr : r.metadata = MetaField.absent ∨ r.metadata = MetaField.malformed) :
    (generateSummaryStats (pre ++ r :: post)).totalSessions =
        pre.length + post.length + 1 ∧
    (generateSummaryStats (pre ++ r :: post)).totalTimeMinutes =
        sumDurations (pre ++ post) + r.durationMinutes.getD 0 ∧
    (generateSummaryStats (pre ++ r :: post)).valorantMatchTypes =
        (pre ++ post).foldl vmtStep [] ∧
    (generateSummaryStats (pre ++ r :: post)).kovaaksAimTypes =
        (pre ++ post).foldl katStep [] ∧
    (apiSessionsLoadResolve { r with metadata := MetaField.malformed }).metadata
        = MetaField.obj ⟨none, none⟩ := by
  have hne : (pre ++ r :: post).isEmpty = false := by
    simp
  refine ⟨?_, ?_, ?_, ?_, rfl⟩
  · simp [generateSummaryStats, hne]
    omega
  · simp only [generateSummaryStats, hne, Bool.false_eq_true, if_false,
      foldl_statsStep_totalTime]
    rw [sumDurations_append, sumDurations_append, sumDurations_cons]
    ring
  · simp only [generateSummaryStats, hne, Bool.false_eq_true, if_false,
      foldl_statsStep_vmt]
    rw [List.foldl_append, List.foldl_append, List.foldl_cons,
      vmtStep_skips_nometa _ r hr]
  · simp only [generateSummaryStats, hne, Bool.false_eq_true, if_false,
      foldl_statsStep_kat]
    rw [List.foldl_append, List.foldl_append, List.foldl_cons,
      katStep_skips_nometa _ r hr]

/-- Evaluation witness for C9: a malformed-metadata record among well-formed
ones still counts toward both totals and leaves the breakdowns those of the
other records. -/
theorem C9_malformed_metadata_absorbed_witness :
    (generateSummaryStats [sValorant, sBrokenMeta]).totalSessions = 2 ∧
    (generateSummaryStats [sValorant, sBrokenMeta]).totalTimeMinutes =
      sumDurations [sValorant] + (10 : Int) ∧
    (generateSummaryStats [sValorant, sBrokenMeta]).kovaaksAimTypes =
      [sValorant].foldl katStep [] := by
  have h := C9_malformed_metadata_absorbed [sValorant] [] sBrokenMeta
    (Or.inr rfl)
  exact ⟨h.1, h.2.1, h.2.2.2.1⟩

/-! ## Claim C3 -/

/-- C3: the statistics computed by the `GET /api/sessions/stats` handler on a
stored session collection coincide, field by field, with the statistics the
client aggregator `generateSummaryStats` computes on the same collection. -/
theorem C3_server_mirrors_client (rows : List Session) :
    apiSessionsStats rows = generateSummaryStats rows := by
  by_cases h : rows.isEmpty
  · rw [List.isEmpty_iff] at h
    subst h
    decide
  · have hlen : 0 < rows.length := by
      rcases rows with _ | _
      · simp at h
      · simp
    apply SummaryStats.ext
    · simp [apiSessionsStats, generateSummaryStats, h]
    · simp [apiSessionsStats, generateSummaryStats, h, sqlSumDur_getD,
        foldl_statsStep_totalTime]
    · simp [apiSessionsStats, generateSummaryStats, h, hlen, sqlSumDur_getD,
        foldl_statsStep_totalTime]
    · apply GameMinutes.ext
      · simp [apiSessionsStats, generateSummaryStats, h, sqlSumDur_getD,
          foldl_statsStep_gb_valorant]
      · simp [apiSessionsStats, generateSummaryStats, h, sqlSumDur_getD,
          foldl_statsStep_gb_kovaaks]
    · simp [apiSessionsStats, generateSummaryStats, h, foldl_serverMetaStep,
        foldl_vmtStep_resolve, foldl_statsStep_vmt]
    · simp [apiSessionsStats, generateSummaryStats, h, foldl_serverMetaStep,
        foldl_katStep_resolve, foldl_statsStep_kat]

/-! ## Lemmas about the daily buckets -/

theorem jsGetDay_updateDay (m : List (String × GameMinutes)) (k k' : String)
    (g : Game) (d : Int) :
    jsGetDay (updateDay m k g d) k' =
      if k' = k then some (addGame ((jsGetDay m k).getD ⟨0, 0⟩) g d)
      else jsGetDay m k' := by
  induction m with
  | nil =>
    by_cases h : k' = k <;> simp [updateDay, jsGetDay, h]
  | cons p rest ih =>
    rcases p with ⟨k0, v0⟩
    by_cases h0 : k0 = k
    · subst h0
      by_cases h : k' = k0 <;> simp [updateDay, jsGetDay, h]
    · by_cases h : k' = k0
      · subst h
        have hk : ¬k' = k := h0
        simp [updateDay, fun hx => h0 hx, jsGetDay, hk]
      · by_cases hkk : k' = k
        · subst hkk
          simp [updateDay, h0, jsGetDay, h, ih, Ne.symm (fun hx => h0 hx.symm)]
        · simp [updateDay, h0, jsGetDay, h, ih, hkk]

theorem addGame_total (v : GameMinutes) (g : Game) (d : Int) :
    (addGame v g d).valorant + (addGame v g d).kovaaks =
      v.valorant + v.kovaaks + d := by
  cases g <;> simp [addGame] <;> ring

theorem dayTotal_updateDay (m : List (String × GameMinutes)) (k k' : String)
    (g : Game) (d : Int) :
    dayTotal (updateDay m k g d) k' =
      dayTotal m k' + (if k' = k then d else 0) := by
  unfold dayTotal
  rw [jsGetDay_updateDay]
  by_cases h : k' = k
  · subst h
    simp [addGame_total]
  · simp [h]

theorem foldl_dailyStep_dayTotal (canon : String → String)
    (l : List Session) :
    ∀ (acc : List (String × GameMinutes)) (k : String),
      dayTotal (l.foldl (dailyStep canon) acc) k =
        dayTotal acc k +
          sumDurations (l.filter (fun s => canon s.date = k)) := by
  induction l with
  | nil => simp [sumDurations]
  | cons s l ih =>
    intro acc k
    rw [List.foldl_cons, ih]
    rw [show dailyStep canon acc s =
      updateDay acc (canon s.date) s.game (s.durationMinutes.getD 0) from rfl]
    rw [dayTotal_updateDay]
    by_cases h : canon s.date = k
    · simp [List.filter_cons, h, sumDurations_cons]
      ring
    · have h' : ¬k = canon s.date := fun hx => h hx.symm
      simp [List.filter_cons, h, h']

theorem keys_updateDay (m : List (String × GameMinutes)) (k : String)
    (g : Game) (d : Int) :
    (updateDay m k g d).map Prod.fst =
      if k ∈ m.map Prod.fst then m.map Prod.fst
      else m.map Prod.fst ++ [k] := by
  induction m with
  | nil => simp [updateDay]
  | cons p rest ih =>
    rcases p with ⟨k0, v0⟩
    by_cases h0 : k0 = k
    · subst h0
      simp [updateDay]
    · by_cases hm : k ∈ rest.map Prod.fst <;>
        simp [updateDay, h0, ih, hm, Ne.symm h0]

theorem nodup_keys_updateDay (m : List (String × GameMinutes)) (k : String)
    (g : Game) (d : Int) (h : (m.map Prod.fst).Nodup) :
    ((updateDay m k g d).map Prod.fst).Nodup := by
  rw [keys_updateDay]
  by_cases hm : k ∈ m.map Prod.fst
  · simpa [hm] using h
  · simp [hm, List.nodup_append, h]

theorem nodup_keys_foldl_dailyStep (canon : String → String)
    (l : List Session) :
    ∀ (acc : List (String × GameMinutes)), (acc.map Prod.fst).Nodup →
      ((l.foldl (dailyStep canon) acc).map Prod.fst).Nodup := by
  induction l with
  | nil => exact fun acc h => h
  | cons s l ih =>
    intro acc h
    rw [List.foldl_cons]
    exact ih _ (nodup_keys_updateDay _ _ _ _ h)

/-! ## Claim C2 -/

/-- C2: the daily trend data's date labels are strictly ascending
lexicographically; at every label index the valorant and kovaaks minute
values add up to the total `durationMinutes` of the input sessions whose
canonical date equals that label; and an empty input produces an empty,
no-bucket result. -/
theorem C2_daily_trend (canon : String → String) (sessions : List Session) :
    (prepareDailyTrendData canon sessions).labels.Sorted (· < ·) ∧
    (∀ i, i < (prepareDailyTrendData canon sessions).labels.length →
      ((prepareDailyTrendData canon sessions).datasets.getD 0 default).data.getD i 0 +
        ((prepareDailyTrendData canon sessions).datasets.getD 1 default).data.getD i 0 =
        sumDurations (sessions.filter (fun s =>
          canon s.date = (prepareDailyTrendData canon sessions).labels.getD i ""))) ∧
    (sessions = [] → (prepareDailyTrendData canon sessions).labels = []) := by
  refine ⟨?_, ?_, ?_⟩
  · show (List.insertionSort (· ≤ ·)
      ((sessions.foldl (dailyStep canon) []).map Prod.fst)).Sorted (· < ·)
    exact (List.sorted_insertionSort _ _).lt_of_le
      ((List.perm_insertionSort _ _).symm.nodup
        (nodup_keys_foldl_dailyStep canon sessions [] (by simp)))
  · intro i hi
    have hlen : i < (List.insertionSort (· ≤ ·)
        ((sessions.foldl (dailyStep canon) []).map Prod.fst)).length := hi
    show ((List.insertionSort (· ≤ ·)
        ((sessions.foldl (dailyStep canon) []).map Prod.fst)).map
          (fun date => ((jsGetDay (sessions.foldl (dailyStep canon) []) date).getD
            ⟨0, 0⟩).valorant)).getD i 0 +
      ((List.insertionSort (· ≤ ·)
        ((sessions.foldl (dailyStep canon) []).map Prod.fst)).map
          (fun date => ((jsGetDay (sessions.foldl (dailyStep canon) []) date).getD
            ⟨0, 0⟩).kovaaks)).getD i 0 =
      sumDurations (sessions.filter (fun s =>
        canon s.date = (List.insertionSort (· ≤ ·)
          ((sessions.foldl (dailyStep canon) []).map Prod.fst)).getD i ""))
    rw [List.getD_eq_getElem _ _ (by simpa using hlen),
      List.getD_eq_getElem _ _ (by simpa using hlen),
      List.getElem_map, List.getElem_map,
      show (List.insertionSort (· ≤ ·)
        ((sessions.foldl (dailyStep canon) []).map Prod.fst)).getD i "" =
        (List.insertionSort (· ≤ ·)
          ((sessions.foldl (dailyStep canon) []).map Prod.fst))[i] from
        List.getD_eq_getElem _ _ hlen]
    rw [show ((jsGetDay (sessions.foldl (dailyStep canon) [])
        (List.insertionSort (· ≤ ·)
          ((sessions.foldl (dailyStep canon) []).map Prod.fst))[i]).getD
            ⟨0, 0⟩).valorant +
      ((jsGetDay (sessions.foldl (dailyStep canon) [])
        (List.insertionSort (· ≤ ·)
          ((sessions.foldl (dailyStep canon) []).map Prod.fst))[i]).getD
            ⟨0, 0⟩).kovaaks =
      dayTotal (sessions.foldl (dailyStep canon) [])
        (List.insertionSort (· ≤ ·)
          ((sessions.foldl (dailyStep canon) []).map Prod.fst))[i] from rfl]
    rw [foldl_dailyStep_dayTotal canon sessions []]
    simp [dayTotal, jsGetDay]
  · intro h
    subst h
    rfl

/-- Evaluation witness for C2: on a one-record collection the single bucket
carries the record's minutes, and the empty collection yields no labels. -/
theorem C2_daily_trend_witness :
    0 < (prepareDailyTrendData id [sValorant]).labels.length ∧
    ((prepareDailyTrendData id [sValorant]).datasets.getD 0 default).data.getD 0 0 +
      ((prepareDailyTrendData id [sValorant]).datasets.getD 1 default).data.getD 0 0 =
      sumDurations ([sValorant].filter (fun s =>
        id s.date = (prepareDailyTrendData id [sValorant]).labels.getD 0 "")) ∧
    (prepareDailyTrendData id ([] : List Session)).labels = [] :=
  ⟨by decide,
   (C2_daily_trend id [sValorant]).2.1 0 (by decide),
   (C2_daily_trend id ([] : List Session)).2.2 rfl⟩

/-! ## Claim C5 -/

/-- C5: on a running session, the stop transition sets
`durationMinutes = Math.round(elapsedMilliseconds / 60000)`; the rounding is
ordinary numeric rounding (a fractional part of exactly one half rounds up),
and an elapsed time of 90500 ms rounds to 2 minutes. -/
theorem C5_stop_rounding (st : TrackerState) (nowIso : String) (cs : Session)
    (hrun : st.isRunning = true) (hcs : st.currentSession = some cs) :
    (showMetadataForm nowIso st).currentSession = some
      { cs with
        endTime := some nowIso
        durationMinutes := some (mathRound ((st.elapsedTime : ℚ) / 60000)) } ∧
    mathRound ((90500 : ℚ) / 60000) = 2 ∧
    (∀ n : ℤ, mathRound ((n : ℚ) + 1 / 2) = n + 1) := by
  refine ⟨?_, ?_, ?_⟩
  · simp [showMetadataForm, hrun, hcs]
  · rw [mathRound, Int.floor_eq_iff]
    norm_num
  · intro n
    have h : ((n : ℚ) + 1 / 2) + 1 / 2 = ((n + 1 : ℤ) : ℚ) := by
      push_cast
      ring
    rw [mathRound, h, Int.floor_intCast]

/-- Evaluation witness for C5 at a concrete running state. -/
theorem C5_stop_rounding_witness :
    (showMetadataForm "2024-01-02T11:00:00.000Z"
        runningKovaaksState).currentSession = some
      { runningKovaaksCurrent with
        endTime := some "2024-01-02T11:00:00.000Z"
        durationMinutes := some
          (mathRound ((runningKovaaksState.elapsedTime : ℚ) / 60000)) } ∧
    mathRound ((90500 : ℚ) / 60000) = 2 :=
  have h := C5_stop_rounding runningKovaaksState "2024-01-02T11:00:00.000Z"
    runningKovaaksCurrent rfl rfl
  ⟨h.1, h.2.1⟩

/-! ## Claim C6 -/

/-- C6 counterexample: a run in which the wall clock moves backwards between
`startTimer` (at `Date.now() = 1000000`) and the next tick (at
`Date.now() = 880000`) leaves `elapsedTime = -120000`; stopping and
completing the session then persists `durationMinutes = -2`, a negative
value, not the claimed clamp to zero. -/
theorem C6_no_clamp_counterexample :
    ((completeSession (showMetadataForm "2024-01-01T10:02:00.000Z"
        (updateTimer 880000 "2024-01-01"
          (startTimer 1000000 "2024-01-01" "2024-01-01T10:00:00.000Z"
            (initialTrackerState Game.valorant))))).sessions.map
      (fun s => s.durationMinutes)) = [some (-2)] ∧ (-2 : ℤ) < 0 := by
  have hm : mathRound ((((880000 - 1000000 : ℤ) : ℚ)) / 60000) = -2 := by
    rw [show (((880000 - 1000000 : ℤ) : ℚ)) / 60000 = -2 by norm_num]
    rw [mathRound, Int.floor_eq_iff]
    norm_num
  refine ⟨?_, by norm_num⟩
  rw [show (completeSession (showMetadataForm "2024-01-01T10:02:00.000Z"
      (updateTimer 880000 "2024-01-01"
        (startTimer 1000000 "2024-01-01" "2024-01-01T10:00:00.000Z"
          (initialTrackerState Game.valorant))))).sessions =
    [{ game := Game.valorant
       date := "2024-01-01"
       startTime := some "2024-01-01T10:00:00.000Z"
       endTime := some "2024-01-01T10:02:00.000Z"
       durationMinutes :=
         some (mathRound ((((880000 - 1000000 : ℤ) : ℚ)) / 60000))
       metadata := MetaField.obj ⟨none, none⟩ }] from rfl]
  rw [List.map_cons, List.map_nil, hm]

/-- C6 amended: the stop transition always stores a present (never missing)
`durationMinutes = Math.round(elapsedTime / 60000)`, and the stored value is
nonnegative whenever the elapsed wall-clock value is nonnegative; a negative
elapsed value is not clamped and persists as a negative duration. -/
theorem C6_duration_unclamped (st : TrackerState) (nowIso : String)
    (cs : Session) (hrun : st.isRunning = true)
    (hcs : st.currentSession = some cs) :
    (showMetadataForm nowIso st).currentSession = some
      { cs with
        endTime := some nowIso
        durationMinutes := some (mathRound ((st.elapsedTime : ℚ) / 60000)) } ∧
    (0 ≤ st.elapsedTime → 0 ≤ mathRound ((st.elapsedTime : ℚ) / 60000)) := by
  constructor
  · simp [showMetadataForm, hrun, hcs]
  · intro he
    rw [mathRound, Int.le_floor]
    have h : (0 : ℚ) ≤ (st.elapsedTime : ℚ) / 60000 := by
      apply div_nonneg _ (by norm_num)
      exact_mod_cast he
    push_cast
    linarith

/-- Evaluation witness for the amended C6 at a concrete running state. -/
theorem C6_duration_unclamped_witness :
    (showMetadataForm "2024-01-02T11:00:00.000Z"
        runningKovaaksState).currentSession = some
      { runningKovaaksCurrent with
        endTime := some "2024-01-02T11:00:00.000Z"
        durationMinutes := some
          (mathRound ((runningKovaaksState.elapsedTime : ℚ) / 60000)) } ∧
    0 ≤ mathRound ((runningKovaaksState.elapsedTime : ℚ) / 60000) :=
  have h := C6_duration_unclamped runningKovaaksState "2024-01-02T11:00:00.000Z"
    runningKovaaksCurrent rfl rfl
  ⟨h.1, h.2 (by decide)⟩

/-! ## Claim C7 -/

/-- C7: `startTimer` while already running and `showMetadataForm` while idle
are both no-ops that leave the whole tracker state unchanged (in particular
the original `startTime` and current session survive a second start). -/
theorem C7_start_stop_noops (now : Int) (today nowIso : String)
    (st : TrackerState) :
    (st.isRunning = true → startTimer now today nowIso st = st) ∧
    (st.isRunning = false → showMetadataForm nowIso st = st) := by
  constructor
  · intro h
    simp [startTimer, h]
  · intro h
    simp [showMetadataForm, h]

/-- Evaluation witness for C7: a second start on a running state and a stop
on the initial idle state change nothing. -/
theorem C7_start_stop_noops_witness :
    startTimer 5 "2024-01-02" "iso" runningKovaaksState =
      runningKovaaksState ∧
    showMetadataForm "iso" (initialTrackerState Game.valorant) =
      initialTrackerState Game.valorant :=
  ⟨(C7_start_stop_noops 5 "2024-01-02" "iso" runningKovaaksState).1 rfl,
   (C7_start_stop_noops 5 "2024-01-02" "iso"
      (initialTrackerState Game.valorant)).2 rfl⟩

/-! ## Claim C8 -/

/-- C8: while a kovaaks session is running with the latch clear, the tick
fires the alarm (latch set, notification shown, sound started) exactly when
today's cumulative kovaaks minutes — completed sessions plus the in-progress
session — reach the 60-minute threshold, and otherwise only updates the
elapsed time; once the latch is set a tick never re-fires or changes the
alarm state; dismissing only silences sound and notification, leaving the
latch, the running flag and everything else untouched; and the constructor
sets the threshold to 60 minutes. -/
theorem C8_kovaaks_alarm (now : Int) (today : String) (st : TrackerState)
    (cs : Session) (g : Game) :
    (st.currentSession = some cs → cs.game = Game.kovaaks →
      st.alarmTriggered = false →
      (todayKovaaksMinutes today
          { st with elapsedTime := now - st.startTime.getD 0 } ≥
            st.hourlyAlarmThreshold →
        (updateTimer now today st).alarmTriggered = true ∧
        (updateTimer now today st).alarmNotificationVisible = true ∧
        (updateTimer now today st).alarmSoundPlaying = true) ∧
      (todayKovaaksMinutes today
          { st with elapsedTime := now - st.startTime.getD 0 } <
            st.hourlyAlarmThreshold →
        updateTimer now today st =
          { st with elapsedTime := now - st.startTime.getD 0 })) ∧
    (st.alarmTriggered = true →
      updateTimer now today st =
        { st with elapsedTime := now - st.startTime.getD 0 }) ∧
    (dismissAlarm st =
      { st with alarmSoundPlaying := false,
                alarmNotificationVisible := false }) ∧
    (initialTrackerState g).hourlyAlarmThreshold = 60 := by
  obtain ⟨run, stime, elap, tact, sess, cur, selg, alarmT, sound, notif,
    thr, mform⟩ := st
  refine ⟨?_, ?_, rfl, rfl⟩
  · intro hcs hg hlatch
    simp only at hcs hlatch
    subst hcs
    subst hlatch
    constructor
    · intro hthr
      simp only [ge_iff_le] at hthr
      simp [updateTimer, checkKovaaksTimeThreshold, triggerAlarm, hg, hthr]
    · intro hthr
      simp [updateTimer, checkKovaaksTimeThreshold, hg, not_le.mpr hthr]
  · intro hlatch
    simp only at hlatch
    subst hlatch
    cases cur with
    | none => rfl
    | some cs' => simp [updateTimer]

/-- Evaluation witness for C8: a concrete running kovaaks state with 59
completed minutes today fires on the tick that brings the in-progress
session to one minute. -/
theorem C8_kovaaks_alarm_witness :
    (updateTimer 60000 "2024-01-02" runningKovaaksState).alarmTriggered =
        true ∧
    (updateTimer 60000 "2024-01-02"
        runningKovaaksState).alarmNotificationVisible = true ∧
    (initialTrackerState Game.kovaaks).hourlyAlarmThreshold = 60 :=
  have h := C8_kovaaks_alarm 60000 "2024-01-02" runningKovaaksState
    runningKovaaksCurrent Game.kovaaks
  have ha := (h.1 rfl rfl rfl).1 (by decide)
  ⟨ha.1, ha.2.1, h.2.2.2⟩

/-! ## Claim C10 -/

theorem forEachThread_pure (f : α → Session → α × Session)
    (step : α → Session → α) (hf : ∀ a s, f a s = (step a s, s))
    (l : List Session) : ∀ a, forEachThread f a l = (l.foldl step a, l) := by
  induction l with
  | nil => intro a; rfl
  | cons s l ih =>
    intro a
    simp only [forEachThread, hf, ih, List.foldl_cons]

/-- C10: the two aggregator operations are read-only over their input: the
session array each loop leaves behind is the input array itself, and the
computed output agrees with the pure aggregation. -/
theorem C10_aggregators_readonly (canon : String → String)
    (sessions : List Session) :
    (generateSummaryStatsM sessions).2 = sessions ∧
    (generateSummaryStatsM sessions).1 = generateSummaryStats sessions ∧
    (prepareDailyTrendDataM canon sessions).2 = sessions ∧
    (prepareDailyTrendDataM canon sessions).1 =
      prepareDailyTrendData canon sessions := by
  have hs : forEachThread statsBody ⟨0, ⟨0, 0⟩, [], []⟩ sessions =
      (sessions.foldl statsStep ⟨0, ⟨0, 0⟩, [], []⟩, sessions) :=
    forEachThread_pure statsBody statsStep (fun a s => rfl) sessions _
  have hd : forEachThread (dailyBody canon) [] sessions =
      (sessions.foldl (dailyStep canon) [], sessions) :=
    forEachThread_pure (dailyBody canon) (dailyStep canon)
      (fun a s => rfl) sessions _
  refine ⟨?_, ?_, ?_, ?_⟩
  · by_cases h : sessions.isEmpty
    · rw [List.isEmpty_iff] at h
      subst h
      rfl
    · simp [generateSummaryStatsM, h, hs]
  · by_cases h : sessions.isEmpty
    · rw [List.isEmpty_iff] at h
      subst h
      rfl
    · simp [generateSummaryStatsM, generateSummaryStats, h, hs]
  · simp [prepareDailyTrendDataM, hd]
  · simp [prepareDailyTrendDataM, prepareDailyTrendData, hd]
